import Mathlib

/-!
Shallow embedding of the `mcp_server` repository (crypto market-data gateway):
`src/mcp_server/services/crypto_service.py` (TTL-cached realtime ticker fetch,
historical OHLCV fetch) and `src/mcp_server/main.py` (symbol normalization and
the ticker endpoint's response mapping).

Modelling conventions:
* Python dict values appearing in ticker data are modelled by `PyVal`; a ticker
  dict is an association list `Dict`.  Python truthiness of a dict is
  non-emptiness.
* Python floats are modelled as `Rat` (the claims only compare them for
  equality), ints as `Int`.
* The external CCXT library is a parameter: `CcxtEnv` gives the set of
  supported exchange ids and, per exchange id, the behaviour of a freshly
  constructed client (`ExchangeInstance`).  Each client method either returns
  a value or raises a `PyExc`.
* Exceptions are values: a function body produces `Except PyExc α`; the
  `except` clauses of the source are the explicit handler `handleExcept`.
* The `cachetools.TTLCache` is an association list from key to
  (insertion time, value); an entry inserted at time `t` with ttl `ttl` is
  live at time `now` iff `now < t + ttl`.  Time is an explicit `Nat`
  parameter; each call of the sequential model happens at a single instant.
  The `maxsize=1024` overflow eviction (which can only remove keys other than
  the one being inserted) is not modelled; no claim exercises it.
* asyncio concurrency for `get_realtime_data` is modelled by a small-step
  interleaving semantics (`taskStep`/`runSched`) whose atomic blocks are the
  code regions between suspension points of the source coroutine.
-/

/-- Python values stored in a ticker dict: strings, ints, floats (as `Rat`),
and `None`. -/
inductive PyVal where
  | str (s : String)
  | int (n : Int)
  | num (q : Rat)
  | pyNone
deriving DecidableEq, Repr

/-- A Python dict with string keys, as an association list (first binding
wins on lookup; inserts replace). -/
abbrev Dict := List (String × PyVal)

/-- `d[k]` lookup that may fail (KeyError modelled as `none`). -/
def dictLookup (d : Dict) (k : String) : Option PyVal :=
  match d with
  | [] => none
  | (k2, v) :: rest => if k2 = k then some v else dictLookup rest k

/-- Python truthiness of a dict: a dict is truthy iff it is non-empty. -/
def dictTruthy (d : Dict) : Bool :=
  !d.isEmpty

/-- Python exceptions that can cross the service-function boundary:
the ccxt exception classes caught by the source's `except` clauses, the
application's own exceptions when raised inside a `try` block, and any other
exception. -/
inductive PyExc where
  | ccxtBadSymbol (msg : String)
  | ccxtNetworkError (msg : String)
  | ccxtExchangeError (msg : String)
  | appInvalidSymbol (msg : String)
  | appDataFetch (msg : String)
  | otherError (msg : String)
deriving DecidableEq, Repr

/-- `str(e)` for an exception: its message. -/
def PyExc.message : PyExc → String
  | .ccxtBadSymbol m => m
  | .ccxtNetworkError m => m
  | .ccxtExchangeError m => m
  | .appInvalidSymbol m => m
  | .appDataFetch m => m
  | .otherError m => m

/-- The application's exception hierarchy from `core/exceptions.py`:
`InvalidSymbolError` and `ExchangeError` both derive from `DataFetchError`;
the three carry a message. -/
inductive DomainError where
  | invalidSymbolError (msg : String)
  | exchangeError (msg : String)
  | dataFetchError (msg : String)
deriving DecidableEq, Repr

/-- One OHLCV candle as delivered by ccxt: `[timestamp, open, high, low,
close, volume]`. -/
abbrev Candle := List Rat

/-- Behaviour of one freshly constructed async ccxt exchange client: the
observable results of its methods.  `timeframes` and `markets` are the key
sets of the corresponding ccxt mappings (`markets` as populated by
`load_markets`). -/
structure ExchangeInstance where
  loadMarkets : Except PyExc Unit
  fetchTicker : String → Except PyExc Dict
  fetchOhlcv : String → String → Option Int → Int → Except PyExc (List Candle)
  timeframes : List String
  markets : List String

/-- The ccxt library as seen by the service: the list of supported exchange
ids (`ccxt.exchanges`) and, for each id, the behaviour of the client that
`getattr(ccxt, exchange_id)()` constructs. -/
structure CcxtEnv where
  exchanges : List String
  newClient : String → ExchangeInstance

/-- `get_exchange` from `crypto_service.py`: raises `ExchangeError` when the
id is not in `ccxt.exchanges`, otherwise constructs and returns a client. -/
def get_exchange (env : CcxtEnv) (exchange_id : String) :
    Except DomainError ExchangeInstance :=
  if exchange_id ∈ env.exchanges then
    .ok (env.newClient exchange_id)
  else
    .error (.exchangeError
      ("Exchange '" ++ exchange_id ++ "' is not supported by CCXT."))

/-- The TTL cache content: key, insertion time, stored dict. -/
abbrev Cache := List (String × Nat × Dict)

/-- `TTLCache.get`: return the stored value if an entry for the key exists
and has not expired (`now < insertion + ttl`), else `None`. -/
def cacheGet (c : Cache) (ttl now : Nat) (k : String) : Option Dict :=
  match c with
  | [] => none
  | (k2, t, v) :: rest =>
    if k2 = k then
      if now < t + ttl then some v else none
    else cacheGet rest ttl now k

/-- `TTLCache.__setitem__`: insert/replace the entry for `k` with insertion
time `now` (overflow eviction of other keys not modelled). -/
def cacheSet (c : Cache) (now : Nat) (k : String) (v : Dict) : Cache :=
  (k, now, v) :: c.filter (fun e => !(e.1 = k : Bool))

/-- The source's `cached_data = ticker_cache.get(key); if cached_data:` test:
the lookup counts as a hit only when it returns a truthy (non-empty) dict.
`None` (miss/expired) and the empty dict are both falsy. -/
def pyTruthyGet (o : Option Dict) : Option Dict :=
  match o with
  | some d => if dictTruthy d then some d else none
  | none => none

/-- The common `except` ladder of `get_realtime_data` and
`get_historical_data`: `ccxt.BadSymbol` → `InvalidSymbolError`,
`ccxt.NetworkError` / `ccxt.ExchangeError` → `ExchangeError`, and any other
exception (including the application's own exceptions raised inside the
`try`) → `DataFetchError` wrapping `str(e)`. -/
def handleExcept (e : PyExc) (symbol exchange_id : String) : DomainError :=
  match e with
  | .ccxtBadSymbol _ =>
    .invalidSymbolError
      ("The symbol '" ++ symbol ++ "' was not found on " ++ exchange_id ++ ".")
  | .ccxtNetworkError m =>
    .exchangeError ("A network error occurred: " ++ m)
  | .ccxtExchangeError m =>
    .exchangeError ("An exchange error occurred: " ++ m)
  | e => .dataFetchError ("An unexpected error occurred: " ++ e.message)

instance {ε α : Type} [DecidableEq ε] [DecidableEq α] :
    DecidableEq (Except ε α) := fun x y =>
  match x, y with
  | .ok a, .ok b =>
    if h : a = b then isTrue (by rw [h]) else isFalse (by simp [h])
  | .error a, .error b =>
    if h : a = b then isTrue (by rw [h]) else isFalse (by simp [h])
  | .ok _, .error _ => isFalse (by simp)
  | .error _, .ok _ => isFalse (by simp)

/-- Observable outcome of one `get_realtime_data` call: the returned dict or
raised error, the cache afterwards, and how often the created client's
methods were invoked (`closeCalls` counts `close()`; `clientCreated` records
whether `get_exchange` constructed a client). -/
structure RtOutcome where
  result : Except DomainError Dict
  cache : Cache
  loadMarketsCalls : Nat
  fetchTickerCalls : Nat
  closeCalls : Nat
  clientCreated : Bool
deriving DecidableEq, Repr

/-- `get_realtime_data` from `crypto_service.py`, sequential semantics (no
other task interleaves; the under-lock double check therefore re-reads the
same cache at the same instant).  Faithful to the source: non-blocking
truthiness-tested cache probe, lock, re-check, `get_exchange`,
`load_markets`, `fetch_ticker`, cache store on success only, `except`
ladder, and an unconditional `finally: await exchange.close()`. -/
def get_realtime_data (env : CcxtEnv) (ttl : Nat) (cache : Cache) (now : Nat)
    (symbol exchange_id : String) : RtOutcome :=
  let cache_key := exchange_id ++ ":" ++ symbol
  match pyTruthyGet (cacheGet cache ttl now cache_key) with
  | some cached_data => ⟨.ok cached_data, cache, 0, 0, 0, false⟩
  | none =>
    -- async with cache_lock: double-check the cache
    match pyTruthyGet (cacheGet cache ttl now cache_key) with
    | some cached_data => ⟨.ok cached_data, cache, 0, 0, 0, false⟩
    | none =>
      match get_exchange env exchange_id with
      | .error e => ⟨.error e, cache, 0, 0, 0, false⟩
      | .ok exchange =>
        match exchange.loadMarkets with
        | .error e =>
          ⟨.error (handleExcept e symbol exchange_id), cache, 1, 0, 1, true⟩
        | .ok _ =>
          match exchange.fetchTicker symbol with
          | .error e =>
            ⟨.error (handleExcept e symbol exchange_id), cache, 1, 1, 1, true⟩
          | .ok ticker_data =>
            ⟨.ok ticker_data, cacheSet cache now cache_key ticker_data,
              1, 1, 1, true⟩

/-- Observable outcome of one `get_historical_data` call. -/
structure HistOutcome where
  result : Except DomainError (List Candle)
  loadMarketsCalls : Nat
  fetchOhlcvCalls : Nat
  closeCalls : Nat
  clientCreated : Bool
deriving DecidableEq, Repr

/-- `get_historical_data` from `crypto_service.py`: `get_exchange`, then
inside `try`: timeframe-support check (raising `DataFetchError`),
`fetch_ohlcv`, and — when the result is falsy (empty) and `since is None` —
`load_markets` plus a membership check of the symbol raising
`InvalidSymbolError`.  Exceptions raised inside the `try`, including the two
application exceptions, reach the `except` ladder; `close()` runs in
`finally`. -/
def get_historical_data (env : CcxtEnv) (symbol timeframe : String)
    (since : Option Int) (limit : Nat) (exchange_id : String) : HistOutcome :=
  match get_exchange env exchange_id with
  | .error e => ⟨.error e, 0, 0, 0, false⟩
  | .ok exchange =>
    if timeframe ∈ exchange.timeframes then
      match exchange.fetchOhlcv symbol timeframe since limit with
      | .error e => ⟨.error (handleExcept e symbol exchange_id), 0, 1, 1, true⟩
      | .ok ohlcv_data =>
        -- `if not ohlcv_data and since is None:`
        if ohlcv_data.isEmpty ∧ since = none then
          match exchange.loadMarkets with
          | .error e =>
            ⟨.error (handleExcept e symbol exchange_id), 1, 1, 1, true⟩
          | .ok _ =>
            if symbol ∈ exchange.markets then
              ⟨.ok ohlcv_data, 1, 1, 1, true⟩
            else
              ⟨.error (handleExcept
                  (.appInvalidSymbol ("The symbol '" ++ symbol ++
                    "' was not found on " ++ exchange_id ++ "."))
                  symbol exchange_id), 1, 1, 1, true⟩
        else
          ⟨.ok ohlcv_data, 0, 1, 1, true⟩
    else
      ⟨.error (handleExcept
          (.appDataFetch ("Timeframe '" ++ timeframe ++ "' not supported by "
            ++ exchange_id ++ ". Supported: "
            ++ String.intercalate ", " exchange.timeframes))
          symbol exchange_id), 0, 0, 1, true⟩

/-- Python `str.upper`, per character (ASCII case mapping; the inputs the
gateway handles are ASCII trading-pair strings). -/
def pyUpper (s : String) : String :=
  ⟨s.data.map Char.toUpper⟩

/-- Python `str.replace('-', '/')`: replace every occurrence of the
one-character pattern. -/
def pyReplaceDashSlash (s : String) : String :=
  ⟨s.data.map (fun c => if c = '-' then '/' else c)⟩

/-- `normalize_symbol` from `main.py`: `symbol.upper().replace('-', '/')`. -/
def normalize_symbol (symbol : String) : String :=
  pyReplaceDashSlash (pyUpper symbol)

/-- The `TickerResponse` pydantic model from `models/schemas.py`. -/
structure TickerResponse where
  symbol : String
  timestamp : Int
  datetime : String
  last : Rat
  volume : Rat
deriving DecidableEq, Repr

/-- The response mapping in `main.py`'s `get_ticker`: builds a
`TickerResponse` from the service's dict, reading `symbol`, `timestamp`,
`datetime`, `last` and — for the `volume` field — `baseVolume`.  A missing
key or ill-typed value (Python `KeyError`/validation error) is `none`. -/
def tickerResponseOfDict (data : Dict) : Option TickerResponse :=
  match dictLookup data "symbol", dictLookup data "timestamp",
      dictLookup data "datetime", dictLookup data "last",
      dictLookup data "baseVolume" with
  | some (.str s), some (.int t), some (.str dt), some (.num l),
      some (.num v) => some ⟨s, t, dt, l, v⟩
  | _, _, _, _, _ => none

/-- Python `exchange or settings.DEFAULT_EXCHANGE`: `None` and the empty
string are falsy, so they select the default. -/
def pyOrDefault (exchange : Option String) (dflt : String) : String :=
  match exchange with
  | some e => if e = "" then dflt else e
  | none => dflt

/-- The `get_ticker` endpoint body from `main.py` (sequential semantics):
normalize the symbol, apply the default exchange (`DEFAULT_EXCHANGE =
"binance"` from `core/config.py`), call the service, and map a successful
dict through `tickerResponseOfDict`.  Returns the HTTP-visible outcome and
the service call's `RtOutcome`. -/
def get_ticker (env : CcxtEnv) (ttl : Nat) (cache : Cache) (now : Nat)
    (symbol : String) (exchange : Option String) :
    Except DomainError (Option TickerResponse) × RtOutcome :=
  let norm_symbol := normalize_symbol symbol
  let exchange_id := pyOrDefault exchange "binance"
  let out := get_realtime_data env ttl cache now norm_symbol exchange_id
  match out.result with
  | .error e => (.error e, out)
  | .ok data => (.ok (tickerResponseOfDict data), out)

/-!
## Interleaved (asyncio) semantics of `get_realtime_data`

Several tasks run `get_realtime_data` concurrently for the same
`(symbol, exchange_id)`.  Under asyncio, code between suspension points runs
atomically; the suspension points of the source coroutine are the
`cache_lock` acquisition, `load_markets`, `fetch_ticker` and `close()`.  A
task's program counter `TaskPC` records the coarsest cut of the coroutine
that preserves all externally observable interleavings: the initial
non-blocking cache probe is one atomic step; waiting for the lock is a
state; the under-lock region up to the start of `fetch_ticker` (re-check,
`get_exchange`, `load_markets`) is one step, since no other task can enter
it while the lock is held and the steps of tasks outside the lock commute
with it; the completion of `fetch_ticker` together with the cache store,
`close()` and the lock release is the final step (the cache store follows
the fetch with no intervening suspension, and a task probing the cache
between store and lock release sees the same cache as after release).
Time does not advance during the race: all steps happen at instant `now`.
-/

/-- Program counter of one task running `get_realtime_data`. -/
inductive TaskPC where
  | start
  | waitLock
  | inCrit
  | fetching
  | taskDone (result : Except DomainError Dict)
deriving DecidableEq, Repr

/-- Shared state of the interleaved system: the ticker cache, whether
`cache_lock` is held, each task's program counter, and the number of
upstream `fetch_ticker` calls started so far. -/
structure ConcState where
  cache : Cache
  lockHeld : Bool
  tasks : List TaskPC
  fetchCalls : Nat
deriving DecidableEq, Repr

/-- Replace task `i`'s program counter. -/
def setTask (s : ConcState) (i : Nat) (pc : TaskPC) : ConcState :=
  { s with tasks := s.tasks.set i pc }

/-- One atomic step of task `i` (a no-op when `i` is out of range, the task
is finished, or it is blocked on the lock).  All tasks call
`get_realtime_data symbol exchange_id` against environment `env`. -/
def taskStep (env : CcxtEnv) (ttl now : Nat) (symbol exchange_id : String)
    (s : ConcState) (i : Nat) : ConcState :=
  let cache_key := exchange_id ++ ":" ++ symbol
  match s.tasks.get? i with
  | none => s
  | some pc =>
    match pc with
    | .start =>
      -- non-blocking cache probe
      match pyTruthyGet (cacheGet s.cache ttl now cache_key) with
      | some cached_data => setTask s i (.taskDone (.ok cached_data))
      | none => setTask s i .waitLock
    | .waitLock =>
      if s.lockHeld then s
      else { setTask s i .inCrit with lockHeld := true }
    | .inCrit =>
      -- under-lock re-check, get_exchange, load_markets
      match pyTruthyGet (cacheGet s.cache ttl now cache_key) with
      | some cached_data =>
        { setTask s i (.taskDone (.ok cached_data)) with lockHeld := false }
      | none =>
        match get_exchange env exchange_id with
        | .error e =>
          { setTask s i (.taskDone (.error e)) with lockHeld := false }
        | .ok exchange =>
          match exchange.loadMarkets with
          | .error e =>
            { setTask s i
                (.taskDone (.error (handleExcept e symbol exchange_id)))
              with lockHeld := false }
          | .ok _ =>
            { setTask s i .fetching with fetchCalls := s.fetchCalls + 1 }
    | .fetching =>
      -- fetch_ticker completes; on success store into the cache; close();
      -- leave the `async with` block, releasing the lock
      match (env.newClient exchange_id).fetchTicker symbol with
      | .error e =>
        { setTask s i (.taskDone (.error (handleExcept e symbol exchange_id)))
          with lockHeld := false }
      | .ok ticker_data =>
        { s with
            tasks := s.tasks.set i (.taskDone (.ok ticker_data)),
            cache := cacheSet s.cache now cache_key ticker_data,
            lockHeld := false }
    | .taskDone _ => s

/-- Run a schedule: at each step the scheduler picks which task moves. -/
def runSched (env : CcxtEnv) (ttl now : Nat) (symbol exchange_id : String)
    (s : ConcState) : List Nat → ConcState
  | [] => s
  | i :: rest =>
    runSched env ttl now symbol exchange_id
      (taskStep env ttl now symbol exchange_id s i) rest

/-- Initial state: `n` tasks about to call `get_realtime_data`, lock free,
no upstream calls yet. -/
def initState (cache : Cache) (n : Nat) : ConcState :=
  ⟨cache, false, List.replicate n .start, 0⟩

/-- A task holds the lock (is inside the `async with` block). -/
def isCrit : TaskPC → Bool
  | .inCrit => true
  | .fetching => true
  | _ => false

/-- A task has an upstream `fetch_ticker` call in flight. -/
def isFetching : TaskPC → Bool
  | .fetching => true
  | _ => false

/-- A task has finished its call. -/
def isDone : TaskPC → Bool
  | .taskDone _ => true
  | _ => false

/-!
## Concrete stub environment (used to evaluate theorems on concrete inputs)

The stub client mirrors the repository's own test fixture
(`tests/test_services.py`): a ticker dict for `BTC/USDT` with
`baseVolume = 1000.0`, timeframes `1h`/`1d`, markets `{BTC/USDT}`.
-/

/-- The mock ticker dict of `tests/test_services.py`. -/
def stubTicker : Dict :=
  [("symbol", .str "BTC/USDT"), ("timestamp", .int 1678886400000),
   ("datetime", .str "2023-03-15T12:00:00.000Z"), ("last", .num 25000),
   ("baseVolume", .num 1000)]

/-- A stub exchange client: knows only `BTC/USDT`. -/
def stubClient : ExchangeInstance where
  loadMarkets := .ok ()
  fetchTicker := fun s =>
    if s = "BTC/USDT" then .ok stubTicker
    else .error (.ccxtBadSymbol "unknown symbol")
  fetchOhlcv := fun _ _ _ _ => .ok []
  timeframes := ["1h", "1d"]
  markets := ["BTC/USDT"]

/-- A ccxt library stub with a single supported exchange. -/
def stubEnv : CcxtEnv where
  exchanges := ["binance"]
  newClient := fun _ => stubClient

/-!
## Helper lemmas about the cache
-/

/-- Looking up the key just stored finds the stored dict (truthy, unexpired
with a positive ttl). -/
theorem pyTruthyGet_cacheSet_self (c : Cache) (ttl now t2 : Nat) (k : String)
    (d : Dict) (hwin : t2 < now + ttl) (htruthy : dictTruthy d = true) :
    pyTruthyGet (cacheGet (cacheSet c now k d) ttl t2 k) = some d := by
  simp [cacheSet, cacheGet, pyTruthyGet, hwin, htruthy]

/-- A probe that misses (no live truthy entry) keeps missing at any later
instant: entries only expire as time moves forward. -/
theorem pyTruthyGet_none_mono (c : Cache) (ttl t1 t2 : Nat) (k : String)
    (h12 : t1 ≤ t2)
    (h : pyTruthyGet (cacheGet c ttl t1 k) = none) :
    pyTruthyGet (cacheGet c ttl t2 k) = none := by
  induction c with
  | nil => simp [cacheGet, pyTruthyGet]
  | cons e rest ih =>
    obtain ⟨k2, t, v⟩ := e
    by_cases hk : k2 = k
    · by_cases h2 : t2 < t + ttl
      · have h1 : t1 < t + ttl := lt_of_le_of_lt h12 h2
        simp only [cacheGet, hk, if_pos rfl, if_pos h1] at h
        simp only [cacheGet, hk, if_pos rfl, if_pos h2]
        exact h
      · simp [cacheGet, hk, h2, pyTruthyGet]
    · simp only [cacheGet, if_neg hk] at h ⊢
      exact ih h

/-!
## Claim theorems
-/

/-- Claim C6: `normalize_symbol` maps every input string to its uppercase
form with every `-` replaced by `/`; it is total (defined on every string,
never rejecting one) and length-preserving. -/
theorem normalize_symbol_upper_dash_slash (s : String) :
    normalize_symbol s =
      ⟨s.data.map (fun c => if c.toUpper = '-' then '/' else c.toUpper)⟩ ∧
    (normalize_symbol s).length = s.length := by
  constructor
  · show String.mk ((s.data.map Char.toUpper).map _) = _
    rw [List.map_map]
    rfl
  · show ((s.data.map Char.toUpper).map
      (fun c => if c = '-' then '/' else c)).length = s.data.length
    simp

/-- Claim C3: in both `get_realtime_data` and `get_historical_data`, for
every environment and input, the created client's `close()` runs exactly
once whenever a client was created, and never otherwise — on every exit
path (success or any error). -/
theorem client_closed_exactly_once (env : CcxtEnv) (ttl : Nat) (cache : Cache)
    (now : Nat) (symbol exchange_id symbol2 timeframe : String)
    (since : Option Int) (limit : Nat) (exchange_id2 : String) :
    ((get_realtime_data env ttl cache now symbol exchange_id).closeCalls
      = cond (get_realtime_data env ttl cache now symbol
          exchange_id).clientCreated 1 0) ∧
    ((get_historical_data env symbol2 timeframe since limit
        exchange_id2).closeCalls
      = cond (get_historical_data env symbol2 timeframe since limit
          exchange_id2).clientCreated 1 0) := by
  constructor
  · unfold get_realtime_data
    dsimp only
    repeat' split
    all_goals simp
  · unfold get_historical_data
    repeat' split
    all_goals simp

/-- Claim C5: when the requested timeframe is not in the client's supported
timeframes mapping, `get_historical_data` fails with a `DataFetchError`
(the internally raised `DataFetchError` is re-wrapped by the generic
`except` clause) and no `fetch_ohlcv` network call is attempted. -/
theorem historical_unsupported_timeframe (env : CcxtEnv)
    (symbol timeframe : String) (since : Option Int) (limit : Nat)
    (exchange_id : String)
    (hsupp : exchange_id ∈ env.exchanges)
    (htf : timeframe ∉ (env.newClient exchange_id).timeframes) :
    (get_historical_data env symbol timeframe since limit exchange_id).result
      = .error (.dataFetchError
          ("An unexpected error occurred: " ++
            ("Timeframe '" ++ timeframe ++ "' not supported by " ++
              exchange_id ++ ". Supported: " ++
              String.intercalate ", " (env.newClient exchange_id).timeframes))) ∧
    (get_historical_data env symbol timeframe since limit
        exchange_id).fetchOhlcvCalls = 0 := by
  unfold get_historical_data
  simp [get_exchange, hsupp, htf, handleExcept, PyExc.message]

theorem historical_unsupported_timeframe_witness :
    (get_historical_data stubEnv "BTC/USDT" "10y" none 100 "binance").result
      = .error (.dataFetchError
          ("An unexpected error occurred: " ++
            ("Timeframe '" ++ "10y" ++ "' not supported by " ++
              "binance" ++ ". Supported: " ++
              String.intercalate ", " (stubEnv.newClient "binance").timeframes))) ∧
    (get_historical_data stubEnv "BTC/USDT" "10y" none 100
        "binance").fetchOhlcvCalls = 0 :=
  historical_unsupported_timeframe stubEnv "BTC/USDT" "10y" none 100 "binance"
    (by decide) (by decide)

/-- Claim C4: for an exchange identifier outside the supported set,
`get_exchange` raises `ExchangeError`; hence `get_historical_data`, and
`get_realtime_data` on its cache-miss path, surface that error with no
client instance created and no upstream call made. -/
theorem unsupported_exchange_rejected (env : CcxtEnv) (ttl : Nat)
    (cache : Cache) (now : Nat) (symbol timeframe : String)
    (since : Option Int) (limit : Nat) (exchange_id : String)
    (hunsupp : exchange_id ∉ env.exchanges)
    (hmiss : pyTruthyGet
      (cacheGet cache ttl now (exchange_id ++ ":" ++ symbol)) = none) :
    get_exchange env exchange_id
      = .error (.exchangeError
          ("Exchange '" ++ exchange_id ++ "' is not supported by CCXT.")) ∧
    get_realtime_data env ttl cache now symbol exchange_id
      = ⟨.error (.exchangeError
          ("Exchange '" ++ exchange_id ++ "' is not supported by CCXT.")),
          cache, 0, 0, 0, false⟩ ∧
    get_historical_data env symbol timeframe since limit exchange_id
      = ⟨.error (.exchangeError
          ("Exchange '" ++ exchange_id ++ "' is not supported by CCXT.")),
          0, 0, 0, false⟩ := by
  have hge : get_exchange env exchange_id
      = .error (.exchangeError
          ("Exchange '" ++ exchange_id ++ "' is not supported by CCXT.")) := by
    simp [get_exchange, hunsupp]
  refine ⟨hge, ?_, ?_⟩
  · simp [get_realtime_data, hmiss, hge]
  · simp [get_historical_data, hge]

theorem unsupported_exchange_rejected_witness :
    get_exchange stubEnv "bogus"
      = .error (.exchangeError
          ("Exchange '" ++ "bogus" ++ "' is not supported by CCXT.")) :=
  (unsupported_exchange_rejected stubEnv 60 [] 0 "BTC/USDT" "1h" none 100
    "bogus" (by decide) rfl).1

/-- Claim C9: the cache probe in `get_realtime_data` tests the cached value
for Python truthiness, not key presence: a live (unexpired) entry whose
value is the empty — falsy — dict is treated as a miss, so the call
creates a client and performs a fresh upstream `fetch_ticker` even though
a live entry exists for the key. -/
theorem falsy_cached_value_refetches (env : CcxtEnv) (ttl : Nat)
    (cache : Cache) (now : Nat) (symbol exchange_id : String)
    (hentry : cacheGet cache ttl now (exchange_id ++ ":" ++ symbol)
      = some [])
    (hsupp : exchange_id ∈ env.exchanges)
    (hlm : (env.newClient exchange_id).loadMarkets = .ok ()) :
    pyTruthyGet (cacheGet cache ttl now (exchange_id ++ ":" ++ symbol))
      = none ∧
    (get_realtime_data env ttl cache now symbol exchange_id).clientCreated
      = true ∧
    (get_realtime_data env ttl cache now symbol exchange_id).fetchTickerCalls
      = 1 := by
  have hmiss : pyTruthyGet
      (cacheGet cache ttl now (exchange_id ++ ":" ++ symbol)) = none := by
    rw [hentry]; rfl
  refine ⟨hmiss, ?_⟩
  cases hft : (env.newClient exchange_id).fetchTicker symbol <;>
    simp [get_realtime_data, hmiss, get_exchange, hsupp, hlm, hft]

theorem falsy_cached_value_refetches_witness :
    (get_realtime_data stubEnv 60 [("binance:BTC/USDT", 0, [])] 0 "BTC/USDT"
      "binance").fetchTickerCalls = 1 :=
  (falsy_cached_value_refetches stubEnv 60 [("binance:BTC/USDT", 0, [])] 0
    "BTC/USDT" "binance" (by decide) (by decide) rfl).2.2

/-- Claim C10: with `since = None`, an empty `fetch_ohlcv` result and a
symbol absent from the loaded markets, `get_historical_data` does not
return the empty list but fails; the internally raised `InvalidSymbolError`
is caught by the trailing generic `except Exception` clause, so the error
that surfaces is a plain `DataFetchError` wrapping the invalid-symbol
message — never `InvalidSymbolError`. -/
theorem empty_ohlcv_unknown_symbol_wrapped (env : CcxtEnv)
    (symbol timeframe : String) (limit : Nat) (exchange_id : String)
    (hsupp : exchange_id ∈ env.exchanges)
    (htf : timeframe ∈ (env.newClient exchange_id).timeframes)
    (hfetch : (env.newClient exchange_id).fetchOhlcv symbol timeframe none
      limit = .ok [])
    (hlm : (env.newClient exchange_id).loadMarkets = .ok ())
    (hmkt : symbol ∉ (env.newClient exchange_id).markets) :
    (get_historical_data env symbol timeframe none limit exchange_id).result
      = .error (.dataFetchError ("An unexpected error occurred: " ++
          ("The symbol '" ++ symbol ++ "' was not found on " ++
            exchange_id ++ "."))) ∧
    ∀ m, (get_historical_data env symbol timeframe none limit
        exchange_id).result ≠ .error (.invalidSymbolError m) := by
  have h : (get_historical_data env symbol timeframe none limit
      exchange_id).result
      = .error (.dataFetchError ("An unexpected error occurred: " ++
          ("The symbol '" ++ symbol ++ "' was not found on " ++
            exchange_id ++ "."))) := by
    simp [get_historical_data, get_exchange, hsupp, htf, hfetch, hlm, hmkt,
      handleExcept, PyExc.message]
  exact ⟨h, fun m hcontra => by simp [h] at hcontra⟩

theorem empty_ohlcv_unknown_symbol_wrapped_witness :
    (get_historical_data stubEnv "ETH/USD" "1h" none 100 "binance").result
      = .error (.dataFetchError ("An unexpected error occurred: " ++
          ("The symbol '" ++ "ETH/USD" ++ "' was not found on " ++
            "binance" ++ "."))) :=
  (empty_ohlcv_unknown_symbol_wrapped stubEnv "ETH/USD" "1h" 100 "binance"
    (by decide) (by decide) rfl rfl (by decide)).1

/-- Claim C1: two sequential `get_realtime_data` calls for the same
(exchange, symbol) pair within the TTL window — starting from a state with
no live truthy entry for the key, against a client whose fetch succeeds
with a ticker dict (non-empty, as the ExchangeClient interface's ticker
record always is) — return identical results and perform exactly one
upstream `fetch_ticker` call: the second call is served from the cache,
creating no client and calling nothing upstream. -/
theorem ttl_window_single_upstream_fetch (env : CcxtEnv) (ttl : Nat)
    (cache : Cache) (t1 t2 : Nat) (symbol exchange_id : String) (d : Dict)
    (hmiss : pyTruthyGet
      (cacheGet cache ttl t1 (exchange_id ++ ":" ++ symbol)) = none)
    (hsupp : exchange_id ∈ env.exchanges)
    (hlm : (env.newClient exchange_id).loadMarkets = .ok ())
    (hft : (env.newClient exchange_id).fetchTicker symbol = .ok d)
    (htruthy : dictTruthy d = true)
    (hwin : t2 < t1 + ttl) :
    (get_realtime_data env ttl cache t1 symbol exchange_id).result = .ok d ∧
    (get_realtime_data env ttl cache t1 symbol
      exchange_id).fetchTickerCalls = 1 ∧
    (get_realtime_data env ttl
        (get_realtime_data env ttl cache t1 symbol exchange_id).cache
        t2 symbol exchange_id)
      = ⟨.ok d,
          (get_realtime_data env ttl cache t1 symbol exchange_id).cache,
          0, 0, 0, false⟩ := by
  have h1 : get_realtime_data env ttl cache t1 symbol exchange_id
      = ⟨.ok d, cacheSet cache t1 (exchange_id ++ ":" ++ symbol) d,
          1, 1, 1, true⟩ := by
    simp [get_realtime_data, hmiss, get_exchange, hsupp, hlm, hft]
  have hhit := pyTruthyGet_cacheSet_self cache ttl t1 t2
    (exchange_id ++ ":" ++ symbol) d hwin htruthy
  rw [h1]
  refine ⟨rfl, rfl, ?_⟩
  simp [get_realtime_data, hhit]

theorem ttl_window_single_upstream_fetch_witness :
    (get_realtime_data stubEnv 60 [] 0 "BTC/USDT" "binance").result
      = .ok stubTicker ∧
    (get_realtime_data stubEnv 60 [] 0 "BTC/USDT"
      "binance").fetchTickerCalls = 1 ∧
    (get_realtime_data stubEnv 60
        (get_realtime_data stubEnv 60 [] 0 "BTC/USDT" "binance").cache
        30 "BTC/USDT" "binance")
      = ⟨.ok stubTicker,
          (get_realtime_data stubEnv 60 [] 0 "BTC/USDT" "binance").cache,
          0, 0, 0, false⟩ :=
  ttl_window_single_upstream_fetch stubEnv 60 [] 0 30 "BTC/USDT" "binance"
    stubTicker rfl (by decide) rfl rfl (by decide) (by decide)

/-- Claim C2: an upstream symbol-not-found (`ccxt.BadSymbol`) surfaces as
`InvalidSymbolError` and leaves the cache exactly as it was, so a later
call for the same key (the miss persists as time moves forward) creates a
client and goes upstream again instead of hitting the cache; and, in full
generality, no error outcome of `get_realtime_data` ever changes the
cache. -/
theorem invalid_symbol_leaves_cache_unchanged (env : CcxtEnv) (ttl : Nat)
    (cache : Cache) (t1 t2 : Nat) (symbol exchange_id m : String)
    (hmiss : pyTruthyGet
      (cacheGet cache ttl t1 (exchange_id ++ ":" ++ symbol)) = none)
    (hsupp : exchange_id ∈ env.exchanges)
    (hlm : (env.newClient exchange_id).loadMarkets = .ok ())
    (hft : (env.newClient exchange_id).fetchTicker symbol
      = .error (.ccxtBadSymbol m))
    (h12 : t1 ≤ t2) :
    ((get_realtime_data env ttl cache t1 symbol exchange_id).result
      = .error (.invalidSymbolError ("The symbol '" ++ symbol ++
          "' was not found on " ++ exchange_id ++ ".")) ∧
     (get_realtime_data env ttl cache t1 symbol exchange_id).cache = cache ∧
     (get_realtime_data env ttl
        (get_realtime_data env ttl cache t1 symbol exchange_id).cache
        t2 symbol exchange_id).clientCreated = true ∧
     (get_realtime_data env ttl
        (get_realtime_data env ttl cache t1 symbol exchange_id).cache
        t2 symbol exchange_id).fetchTickerCalls = 1) ∧
    ∀ (env2 : CcxtEnv) (ttl2 : Nat) (c2 : Cache) (n2 : Nat)
      (sym2 ex2 : String) (e : DomainError),
      (get_realtime_data env2 ttl2 c2 n2 sym2 ex2).result = .error e →
      (get_realtime_data env2 ttl2 c2 n2 sym2 ex2).cache = c2 := by
  constructor
  · have h1 : get_realtime_data env ttl cache t1 symbol exchange_id
        = ⟨.error (.invalidSymbolError ("The symbol '" ++ symbol ++
            "' was not found on " ++ exchange_id ++ ".")),
            cache, 1, 1, 1, true⟩ := by
      simp [get_realtime_data, hmiss, get_exchange, hsupp, hlm, hft,
        handleExcept]
    have hmiss2 : pyTruthyGet
        (cacheGet cache ttl t2 (exchange_id ++ ":" ++ symbol)) = none :=
      pyTruthyGet_none_mono cache ttl t1 t2 (exchange_id ++ ":" ++ symbol)
        h12 hmiss
    rw [h1]
    refine ⟨rfl, rfl, ?_, ?_⟩ <;>
      simp [get_realtime_data, hmiss2, get_exchange, hsupp, hlm, hft]
  · intro env2 ttl2 c2 n2 sym2 ex2 e h
    cases hc : pyTruthyGet (cacheGet c2 ttl2 n2 (ex2 ++ ":" ++ sym2)) with
    | some dd => simp [get_realtime_data, hc] at h
    | none =>
      cases hg : get_exchange env2 ex2 with
      | error e2 => simp [get_realtime_data, hc, hg]
      | ok exch =>
        cases hl : exch.loadMarkets with
        | error e2 => simp [get_realtime_data, hc, hg, hl]
        | ok u =>
          cases hf : exch.fetchTicker sym2 with
          | error e2 => simp [get_realtime_data, hc, hg, hl, hf]
          | ok dd => simp [get_realtime_data, hc, hg, hl, hf] at h

theorem invalid_symbol_leaves_cache_unchanged_witness :
    (get_realtime_data stubEnv 60 [] 0 "ETH/USD" "binance").result
      = .error (.invalidSymbolError ("The symbol '" ++ "ETH/USD" ++
          "' was not found on " ++ "binance" ++ ".")) ∧
    (get_realtime_data stubEnv 60 [] 0 "ETH/USD" "binance").cache = [] :=
  let h := invalid_symbol_leaves_cache_unchanged stubEnv 60 [] 0 5 "ETH/USD"
    "binance" "unknown symbol" rfl (by decide) rfl rfl (by decide)
  ⟨h.1.1, h.1.2.1⟩

/-- Claim C8: whenever the `get_ticker` response mapping succeeds, the
response's `volume` equals the upstream ticker's `baseVolume` field
(renamed), and `symbol`, `timestamp`, `datetime`, `last` equal the upstream
fields of the same names; concretely, the stub ticker with
`baseVolume = 1000.0` yields a response with `volume = 1000.0` from one
upstream fetch. -/
theorem ticker_response_field_mapping :
    (∀ (data : Dict) (r : TickerResponse), tickerResponseOfDict data = some r →
      dictLookup data "baseVolume" = some (.num r.volume) ∧
      dictLookup data "symbol" = some (.str r.symbol) ∧
      dictLookup data "timestamp" = some (.int r.timestamp) ∧
      dictLookup data "datetime" = some (.str r.datetime) ∧
      dictLookup data "last" = some (.num r.last)) ∧
    (get_ticker stubEnv 60 [] 0 "btc-usdt" none).1
      = .ok (some ⟨"BTC/USDT", 1678886400000, "2023-03-15T12:00:00.000Z",
          25000, 1000⟩) ∧
    (get_ticker stubEnv 60 [] 0 "btc-usdt" none).2.fetchTickerCalls = 1 := by
  refine ⟨?_, by decide, by decide⟩
  intro data r h
  unfold tickerResponseOfDict at h
  repeat' split at h
  all_goals try (cases h)
  all_goals simp_all

theorem ticker_response_field_mapping_witness :
    dictLookup stubTicker "baseVolume" = some (.num 1000) :=
  (ticker_response_field_mapping.1 stubTicker
    ⟨"BTC/USDT", 1678886400000, "2023-03-15T12:00:00.000Z", 25000, 1000⟩
    rfl).1

/-!
## Single-flight invariant for the interleaved semantics
-/

/-- A task is exactly at the under-lock re-check point. -/
def isInCrit : TaskPC → Bool
  | .inCrit => true
  | _ => false

/-- Updating index `i` (currently holding `a`) to `b` shifts `countP` by
the difference of the two elements' predicate values. -/
theorem countP_set_shift {α : Type} (p : α → Bool) (l : List α) (i : Nat)
    (a b : α) (h : l.get? i = some a) :
    (l.set i b).countP p + (if p a then 1 else 0)
      = l.countP p + (if p b then 1 else 0) := by
  induction l generalizing i with
  | nil => simp at h
  | cons x xs ih =>
    cases i with
    | zero =>
      simp only [List.get?_cons_zero, Option.some.injEq] at h
      subst h
      simp only [List.set_cons_zero, List.countP_cons]
      omega
    | succ k =>
      simp only [List.get?_cons_succ] at h
      have hk := ih k h
      simp only [List.set_cons_succ, List.countP_cons]
      omega

/-- A predicate implied elementwise counts no more often. -/
theorem countP_le_countP_of_imp {α : Type} (p q : α → Bool) (l : List α)
    (h : ∀ a, p a = true → q a = true) : l.countP p ≤ l.countP q := by
  induction l with
  | nil => simp
  | cons x xs ih =>
    simp only [List.countP_cons]
    cases hpx : p x with
    | false =>
      simp only [hpx, Bool.false_eq_true, if_false]
      have : (if q x = true then 1 else 0) = 1 ∨
          (if q x = true then 1 else 0) = 0 := by
        cases q x <;> simp
      omega
    | true =>
      simp only [hpx, h x hpx, if_true]
      omega

/-- An element seen at some index makes `countP` positive. -/
theorem countP_pos_of_get {α : Type} (p : α → Bool) (l : List α) (i : Nat)
    (a : α) (hg : l.get? i = some a) (hp : p a = true) :
    1 ≤ l.countP p := by
  have hmem : a ∈ l := List.getElem?_mem ((List.get?_eq_getElem? l i) ▸ hg)
  exact List.countP_pos_iff.2 ⟨a, hmem, hp⟩

/-- `countP` over a replicated element the predicate rejects. -/
theorem countP_replicate_of_neg {α : Type} (p : α → Bool) (a : α) (n : Nat)
    (h : p a = false) : (List.replicate n a).countP p = 0 := by
  induction n with
  | zero => simp
  | succ k ih => simp [List.replicate_succ, List.countP_cons, h, ih]

/-- Invariant of the interleaved system when every task requests the same
key, the initial cache `cache0` has no live truthy entry for it, and the
upstream fetch succeeds with the truthy dict `d`: the lock is held exactly
when one task is in the critical section, and the system is in one of
three phases — before the upstream call (cache untouched, nobody done),
during the single upstream call (exactly one fetching task holding the
lock), or after it (cache populated with `d`, every finished task got
`d`). -/
def SfInv (now : Nat) (key : String) (cache0 : Cache) (d : Dict) (n : Nat)
    (s : ConcState) : Prop :=
  s.tasks.length = n ∧
  (s.lockHeld = true ↔ s.tasks.countP isCrit = 1) ∧
  s.tasks.countP isCrit ≤ 1 ∧
  ((s.cache = cache0 ∧ s.fetchCalls = 0 ∧ s.tasks.countP isFetching = 0 ∧
      ∀ pc ∈ s.tasks, isDone pc = false)
   ∨ (s.cache = cache0 ∧ s.fetchCalls = 1 ∧ s.tasks.countP isFetching = 1 ∧
      s.tasks.countP isInCrit = 0 ∧ ∀ pc ∈ s.tasks, isDone pc = false)
   ∨ (s.cache = cacheSet cache0 now key d ∧ s.fetchCalls = 1 ∧
      s.tasks.countP isFetching = 0 ∧
      ∀ pc ∈ s.tasks, isDone pc = true → pc = .taskDone (.ok d)))

theorem isFetching_imp_isCrit (pc : TaskPC) (h : isFetching pc = true) :
    isCrit pc = true := by
  cases pc <;> simp_all [isFetching, isCrit]

theorem isInCrit_imp_isCrit (pc : TaskPC) (h : isInCrit pc = true) :
    isCrit pc = true := by
  cases pc <;> simp_all [isInCrit, isCrit]

theorem get_exchange_pos (env : CcxtEnv) (exchange_id : String)
    (h : exchange_id ∈ env.exchanges) :
    get_exchange env exchange_id = .ok (env.newClient exchange_id) := by
  simp [get_exchange, h]

/-- One interleaved step preserves the single-flight invariant (environment
hypotheses: the key has no live truthy entry in `cache0`, the exchange is
supported, `load_markets` succeeds and `fetch_ticker` returns the truthy
dict `d`; the ttl is positive). -/
theorem taskStep_preserves_inv (env : CcxtEnv) (ttl now : Nat)
    (symbol exchange_id : String) (cache0 : Cache) (d : Dict) (n : Nat)
    (hmiss : pyTruthyGet (cacheGet cache0 ttl now
      (exchange_id ++ ":" ++ symbol)) = none)
    (hsupp : exchange_id ∈ env.exchanges)
    (hlm : (env.newClient exchange_id).loadMarkets = .ok ())
    (hft : (env.newClient exchange_id).fetchTicker symbol = .ok d)
    (htruthy : dictTruthy d = true) (httl : 0 < ttl)
    (s : ConcState) (i : Nat)
    (hinv : SfInv now (exchange_id ++ ":" ++ symbol) cache0 d n s) :
    SfInv now (exchange_id ++ ":" ++ symbol) cache0 d n
      (taskStep env ttl now symbol exchange_id s i) := by
  obtain ⟨hlen, hlock, hcrit, hphase⟩ := hinv
  have hhit : pyTruthyGet (cacheGet (cacheSet cache0 now
      (exchange_id ++ ":" ++ symbol) d) ttl now
      (exchange_id ++ ":" ++ symbol)) = some d :=
    pyTruthyGet_cacheSet_self cache0 ttl now now _ d
      (Nat.lt_add_of_pos_right httl) htruthy
  unfold taskStep
  cases hg : s.tasks.get? i with
  | none => exact ⟨hlen, hlock, hcrit, hphase⟩
  | some pc =>
    cases pc with
    | taskDone r => exact ⟨hlen, hlock, hcrit, hphase⟩
    | start =>
      have hcritEq := countP_set_shift isCrit s.tasks i .start .waitLock hg
      have hfetEq := countP_set_shift isFetching s.tasks i .start .waitLock hg
      have hicEq := countP_set_shift isInCrit s.tasks i .start .waitLock hg
      have hcritEq2 := countP_set_shift isCrit s.tasks i .start (.taskDone (.ok d)) hg
      have hfetEq2 := countP_set_shift isFetching s.tasks i .start (.taskDone (.ok d)) hg
      simp [isCrit, isFetching, isInCrit] at hcritEq hfetEq hicEq hcritEq2 hfetEq2
      rcases hphase with hA | hB | hC
      · -- phase: before the upstream call; the probe misses
        obtain ⟨hc, hf, hfet, hdone⟩ := hA
        simp only [hc, hmiss]
        refine ⟨by simp [setTask, hlen], ?_, ?_,
          Or.inl ⟨by simp [setTask, hc], by simp [setTask, hf], ?_, ?_⟩⟩
        · simpa [setTask, hcritEq] using hlock
        · simpa [setTask, hcritEq] using hcrit
        · simp [setTask, hfetEq, hfet]
        · intro pc2 hpc2
          rcases List.mem_or_eq_of_mem_set hpc2 with hmem | rfl
          · exact hdone pc2 hmem
          · rfl
      · -- phase: upstream call in flight; the probe misses
        obtain ⟨hc, hf, hfet, hic, hdone⟩ := hB
        simp only [hc, hmiss]
        refine ⟨by simp [setTask, hlen], ?_, ?_,
          Or.inr (Or.inl ⟨by simp [setTask, hc], by simp [setTask, hf], ?_, ?_, ?_⟩)⟩
        · simpa [setTask, hcritEq] using hlock
        · simpa [setTask, hcritEq] using hcrit
        · simp [setTask, hfetEq, hfet]
        · simp [setTask, hicEq, hic]
        · intro pc2 hpc2
          rcases List.mem_or_eq_of_mem_set hpc2 with hmem | rfl
          · exact hdone pc2 hmem
          · rfl
      · -- phase: result cached; the probe hits and the task finishes
        obtain ⟨hc, hf, hfet, hdone⟩ := hC
        simp only [hc, hhit]
        refine ⟨by simp [setTask, hlen], ?_, ?_,
          Or.inr (Or.inr ⟨by simp [setTask, hc], by simp [setTask, hf], ?_, ?_⟩)⟩
        · simpa [setTask, hcritEq2] using hlock
        · simpa [setTask, hcritEq2] using hcrit
        · simp [setTask, hfetEq2, hfet]
        · intro pc2 hpc2
          rcases List.mem_or_eq_of_mem_set hpc2 with hmem | rfl
          · exact hdone pc2 hmem
          · intro _; rfl
    | waitLock =>
      cases hl : s.lockHeld with
      | true =>
        simp only [hl, if_true]
        exact ⟨hlen, hlock, hcrit, hphase⟩
      | false =>
        have hne1 : ¬s.tasks.countP isCrit = 1 := by
          intro h1
          rw [hlock.mpr h1] at hl
          cases hl
        have hc0 : s.tasks.countP isCrit = 0 := by omega
        have hcritEq := countP_set_shift isCrit s.tasks i .waitLock .inCrit hg
        have hfetEq := countP_set_shift isFetching s.tasks i .waitLock .inCrit hg
        have hicEq := countP_set_shift isInCrit s.tasks i .waitLock .inCrit hg
        simp [isCrit, isFetching, isInCrit] at hcritEq hfetEq hicEq
        simp only [hl, Bool.false_eq_true, if_false]
        rcases hphase with hA | hB | hC
        · obtain ⟨hc, hf, hfet, hdone⟩ := hA
          refine ⟨by simp [setTask, hlen], ?_, ?_,
            Or.inl ⟨by simp [setTask, hc], by simp [setTask, hf], ?_, ?_⟩⟩
          · simp only [setTask]
            constructor
            · intro _; omega
            · intro _; trivial
          · simp only [setTask]
            omega
          · simp [setTask, hfetEq, hfet]
          · intro pc2 hpc2
            rcases List.mem_or_eq_of_mem_set hpc2 with hmem | rfl
            · exact hdone pc2 hmem
            · rfl
        · -- impossible: a fetch is in flight, so the lock is held
          exfalso
          obtain ⟨hc, hf, hfet, hic, hdone⟩ := hB
          have hmono := countP_le_countP_of_imp isFetching isCrit s.tasks
            isFetching_imp_isCrit
          omega
        · obtain ⟨hc, hf, hfet, hdone⟩ := hC
          refine ⟨by simp [setTask, hlen], ?_, ?_,
            Or.inr (Or.inr ⟨by simp [setTask, hc], by simp [setTask, hf], ?_, ?_⟩)⟩
          · simp only [setTask]
            constructor
            · intro _; omega
            · intro _; trivial
          · simp only [setTask]
            omega
          · simp [setTask, hfetEq, hfet]
          · intro pc2 hpc2
            rcases List.mem_or_eq_of_mem_set hpc2 with hmem | rfl
            · exact hdone pc2 hmem
            · intro h2; cases h2
    | inCrit =>
      have hcrit1 : s.tasks.countP isCrit = 1 := by
        have := countP_pos_of_get isCrit s.tasks i .inCrit hg rfl
        omega
      have hic1 : 1 ≤ s.tasks.countP isInCrit :=
        countP_pos_of_get isInCrit s.tasks i .inCrit hg rfl
      have hlockT : s.lockHeld = true := hlock.mpr hcrit1
      rcases hphase with hA | hB | hC
      · -- phase: before the upstream call — re-check misses, fetch starts
        obtain ⟨hc, hf, hfet, hdone⟩ := hA
        have hcritEq := countP_set_shift isCrit s.tasks i .inCrit .fetching hg
        have hfetEq := countP_set_shift isFetching s.tasks i .inCrit .fetching hg
        have hicEq := countP_set_shift isInCrit s.tasks i .inCrit .fetching hg
        have hicLe := countP_le_countP_of_imp isInCrit isCrit s.tasks
          isInCrit_imp_isCrit
        simp [isCrit, isFetching, isInCrit] at hcritEq hfetEq hicEq
        simp only [hc, hmiss, get_exchange_pos env exchange_id hsupp, hlm]
        refine ⟨by simp [setTask, hlen], ?_, ?_,
          Or.inr (Or.inl ⟨by simp [setTask, hc], by simp [setTask, hf], ?_, ?_, ?_⟩)⟩
        · simp only [setTask, hlockT]
          constructor
          · intro _; omega
          · intro _; trivial
        · simp only [setTask]
          omega
        · simp only [setTask]
          omega
        · simp only [setTask]
          omega
        · intro pc2 hpc2
          rcases List.mem_or_eq_of_mem_set hpc2 with hmem | rfl
          · exact hdone pc2 hmem
          · rfl
      · -- impossible: nobody is at the re-check point during the fetch
        exfalso
        obtain ⟨hc, hf, hfet, hic, hdone⟩ := hB
        omega
      · -- phase: result cached — re-check hits, task finishes, lock drops
        obtain ⟨hc, hf, hfet, hdone⟩ := hC
        have hcritEq := countP_set_shift isCrit s.tasks i .inCrit (.taskDone (.ok d)) hg
        have hfetEq := countP_set_shift isFetching s.tasks i .inCrit (.taskDone (.ok d)) hg
        simp [isCrit, isFetching] at hcritEq hfetEq
        simp only [hc, hhit]
        refine ⟨by simp [setTask, hlen], ?_, ?_,
          Or.inr (Or.inr ⟨by simp [setTask, hc], by simp [setTask, hf], ?_, ?_⟩)⟩
        · simp only [setTask]
          constructor
          · intro h2; simp at h2
          · intro h2; exfalso; omega
        · simp only [setTask]
          omega
        · simp only [setTask]
          omega
        · intro pc2 hpc2
          rcases List.mem_or_eq_of_mem_set hpc2 with hmem | rfl
          · exact hdone pc2 hmem
          · intro _; rfl
    | fetching =>
      have hfet1 : 1 ≤ s.tasks.countP isFetching :=
        countP_pos_of_get isFetching s.tasks i .fetching hg rfl
      have hcrit1 : s.tasks.countP isCrit = 1 := by
        have := countP_pos_of_get isCrit s.tasks i .fetching hg rfl
        omega
      rcases hphase with hA | hB | hC
      · exfalso
        obtain ⟨hc, hf, hfet, hdone⟩ := hA
        omega
      · -- phase: the fetch completes, stores `d`, closes, drops the lock
        obtain ⟨hc, hf, hfet, hic, hdone⟩ := hB
        have hcritEq := countP_set_shift isCrit s.tasks i .fetching (.taskDone (.ok d)) hg
        have hfetEq := countP_set_shift isFetching s.tasks i .fetching (.taskDone (.ok d)) hg
        simp [isCrit, isFetching] at hcritEq hfetEq
        simp only [hft]
        refine ⟨by simp [hlen], ?_, ?_,
          Or.inr (Or.inr ⟨by simp [hc], by simp [hf], ?_, ?_⟩)⟩
        · constructor
          · intro h2; simp at h2
          · intro h2
            exfalso
            simp at h2
            omega
        · simp only []
          omega
        · simp only []
          omega
        · intro pc2 hpc2
          simp only [] at hpc2
          rcases List.mem_or_eq_of_mem_set hpc2 with hmem | rfl
          · intro habs
            rw [hdone pc2 hmem] at habs
            cases habs
          · intro _; rfl
      · exfalso
        obtain ⟨hc, hf, hfet, hdone⟩ := hC
        omega

/-- The initial state — all tasks at `start`, lock free, no fetches —
satisfies the single-flight invariant. -/
theorem initState_inv (now : Nat) (key : String) (cache0 : Cache) (d : Dict)
    (n : Nat) : SfInv now key cache0 d n (initState cache0 n) := by
  have hcrit0 : (List.replicate n TaskPC.start).countP isCrit = 0 :=
    countP_replicate_of_neg isCrit .start n rfl
  have hfet0 : (List.replicate n TaskPC.start).countP isFetching = 0 :=
    countP_replicate_of_neg isFetching .start n rfl
  refine ⟨by simp [initState], ?_, ?_, Or.inl ⟨rfl, rfl, ?_, ?_⟩⟩
  · simp [initState, hcrit0]
  · simp [initState, hcrit0]
  · exact hfet0
  · intro pc hpc
    rw [List.eq_of_mem_replicate hpc]
    rfl

/-- Running any schedule preserves the single-flight invariant. -/
theorem runSched_inv (env : CcxtEnv) (ttl now : Nat)
    (symbol exchange_id : String) (cache0 : Cache) (d : Dict) (n : Nat)
    (hmiss : pyTruthyGet (cacheGet cache0 ttl now
      (exchange_id ++ ":" ++ symbol)) = none)
    (hsupp : exchange_id ∈ env.exchanges)
    (hlm : (env.newClient exchange_id).loadMarkets = .ok ())
    (hft : (env.newClient exchange_id).fetchTicker symbol = .ok d)
    (htruthy : dictTruthy d = true) (httl : 0 < ttl)
    (sched : List Nat) (s : ConcState)
    (hs : SfInv now (exchange_id ++ ":" ++ symbol) cache0 d n s) :
    SfInv now (exchange_id ++ ":" ++ symbol) cache0 d n
      (runSched env ttl now symbol exchange_id s sched) := by
  induction sched generalizing s with
  | nil => exact hs
  | cons i rest ih =>
    exact ih (taskStep env ttl now symbol exchange_id s i)
      (taskStep_preserves_inv env ttl now symbol exchange_id cache0 d n
        hmiss hsupp hlm hft htruthy httl s i hs)

/-- Claim C7: single-flight per key.  With `n` tasks concurrently calling
`get_realtime_data` for the same key — no live truthy cache entry at the
start, positive ttl, a supported exchange whose client fetch succeeds with
the (non-empty, per the ExchangeClient interface) dict `d` — under every
interleaving: at most one upstream `fetch_ticker` is ever in flight, at
most one upstream call is ever started, and when all tasks have finished,
exactly one upstream call was made and every task received that same
result `d` (via the fresh-hit or under-lock re-check path). -/
theorem single_flight_per_key (env : CcxtEnv) (ttl now : Nat)
    (symbol exchange_id : String) (cache0 : Cache) (d : Dict) (n : Nat)
    (hmiss : pyTruthyGet (cacheGet cache0 ttl now
      (exchange_id ++ ":" ++ symbol)) = none)
    (hsupp : exchange_id ∈ env.exchanges)
    (hlm : (env.newClient exchange_id).loadMarkets = .ok ())
    (hft : (env.newClient exchange_id).fetchTicker symbol = .ok d)
    (htruthy : dictTruthy d = true) (httl : 0 < ttl) (hn : 0 < n)
    (sched : List Nat) :
    (runSched env ttl now symbol exchange_id (initState cache0 n)
      sched).tasks.countP isFetching ≤ 1 ∧
    (runSched env ttl now symbol exchange_id (initState cache0 n)
      sched).fetchCalls ≤ 1 ∧
    ((∀ pc ∈ (runSched env ttl now symbol exchange_id (initState cache0 n)
        sched).tasks, isDone pc = true) →
      (runSched env ttl now symbol exchange_id (initState cache0 n)
        sched).fetchCalls = 1 ∧
      ∀ pc ∈ (runSched env ttl now symbol exchange_id (initState cache0 n)
        sched).tasks, pc = TaskPC.taskDone (.ok d)) := by
  obtain ⟨hlen, hlock, hcrit, hphase⟩ :=
    runSched_inv env ttl now symbol exchange_id cache0 d n hmiss hsupp hlm
      hft htruthy httl sched (initState cache0 n)
      (initState_inv now (exchange_id ++ ":" ++ symbol) cache0 d n)
  refine ⟨?_, ?_, ?_⟩
  · rcases hphase with ⟨_, _, hfet, _⟩ | ⟨_, _, hfet, _, _⟩ | ⟨_, _, hfet, _⟩ <;> omega
  · rcases hphase with ⟨_, hf, _, _⟩ | ⟨_, hf, _, _, _⟩ | ⟨_, hf, _, _⟩ <;> omega
  · intro hall
    have hpos : 0 < (runSched env ttl now symbol exchange_id
        (initState cache0 n) sched).tasks.length := by omega
    obtain ⟨pc0, hpc0⟩ := List.exists_mem_of_ne_nil _ (List.length_pos.mp hpos)
    rcases hphase with ⟨_, _, _, hdone⟩ | ⟨_, _, _, _, hdone⟩ |
      ⟨_, hf, _, hdone⟩
    · have h1 := hall pc0 hpc0
      rw [hdone pc0 hpc0] at h1
      cases h1
    · have h1 := hall pc0 hpc0
      rw [hdone pc0 hpc0] at h1
      cases h1
    · exact ⟨hf, fun pc hpc => hdone pc hpc (hall pc hpc)⟩

theorem single_flight_per_key_witness :
    (runSched stubEnv 60 0 "BTC/USDT" "binance" (initState [] 2)
      [0, 1, 0, 0, 0, 1, 1]).tasks.countP isFetching ≤ 1 ∧
    (runSched stubEnv 60 0 "BTC/USDT" "binance" (initState [] 2)
      [0, 1, 0, 0, 0, 1, 1]).fetchCalls ≤ 1 ∧
    ((∀ pc ∈ (runSched stubEnv 60 0 "BTC/USDT" "binance" (initState [] 2)
        [0, 1, 0, 0, 0, 1, 1]).tasks, isDone pc = true) →
      (runSched stubEnv 60 0 "BTC/USDT" "binance" (initState [] 2)
        [0, 1, 0, 0, 0, 1, 1]).fetchCalls = 1 ∧
      ∀ pc ∈ (runSched stubEnv 60 0 "BTC/USDT" "binance" (initState [] 2)
        [0, 1, 0, 0, 0, 1, 1]).tasks, pc = TaskPC.taskDone (.ok stubTicker)) :=
  single_flight_per_key stubEnv 60 0 "BTC/USDT" "binance" [] stubTicker 2
    rfl (by decide) rfl rfl (by decide) (by decide) (by decide)
    [0, 1, 0, 0, 0, 1, 1]
